import Mathlib

/-!
Verification of the SG1_Team3 factory simulation (src/main.py, src/data_processor.py).

The development shallowly embeds the parts of the source that the spec talks
about: the per-station failure-check counter, the station constructor, the
deterministic first-item trace, the simpy capacity-1 resource queue used by the
stations 4/5 race, and small transition systems for the factory counters, the
busy/downtime accounting, the broken-flag protocol and the per-station bin.
All times are modelled as rationals, counters as naturals.
-/

namespace SG1

/-! ### Failure-check logic (main.py lines 51 to 61, 104 to 105, 80) -/

/-- State relevant to check_for_failure: the count_since_check counter
(main.py line 32) and num_breakdowns (line 39, incremented in break_station
line 80 exactly when check_for_failure returned True, see lines 104 to 105). -/
structure CFState where
  count_since_check : ℕ
  num_breakdowns : ℕ
  deriving DecidableEq, Repr

/-- check_for_failure (main.py lines 51 to 61), with the num_breakdowns
increment of break_station (line 80) folded in, since lines 104 to 105 run
break_station exactly when check_for_failure returns True.  The draw r is the
value of random.random(), consumed only on the branch where the counter
reached 5.  Returns (new state, trial drawn, breakdown triggered). -/
def check_for_failure (fail_prob r : ℚ) (s : CFState) : CFState × Bool × Bool :=
  let c := s.count_since_check + 1
  if 5 ≤ c then
    if r < fail_prob then (⟨0, s.num_breakdowns + 1⟩, true, true)
    else (⟨0, s.num_breakdowns⟩, true, false)
  else (⟨c, s.num_breakdowns⟩, false, false)

/-- Fold check_for_failure over a list of random draws, one per completed
item, as process_item does after each completion (main.py line 104). -/
def run_checks (fail_prob : ℚ) (s : CFState) : List ℚ → CFState
  | [] => s
  | r :: rs => run_checks fail_prob (check_for_failure fail_prob r s).1 rs

/-- Per-completion flags saying whether a Bernoulli trial was drawn at that
completion (the inner branch of main.py lines 54 to 60 was entered). -/
def trial_flags (fail_prob : ℚ) (s : CFState) : List ℚ → List Bool
  | [] => []
  | r :: rs =>
    let out := check_for_failure fail_prob r s
    out.2.1 :: trial_flags fail_prob out.1 rs

/-! ### Station construction (main.py lines 23 to 43) -/

/-- The scalar fields assigned by Station.__init__ (main.py lines 23 to 43),
with the simpy Resource replaced by nothing (its state lives in the resource
model below) and the simpy Container by its integer level (line 34). -/
structure StationRecord where
  fail_prob : ℚ
  fix_time_mean : ℚ
  work_time_mean : ℚ
  count_since_check : ℕ
  is_broken : Bool
  binLevel : ℤ
  total_downtime : ℚ
  num_breakdowns : ℕ
  total_processing_time : ℚ
  busy_time : ℚ
  last_start_busy : ℚ
  deriving DecidableEq, Repr

/-- Station.__init__ (main.py lines 23 to 43).  The Python constructor
contains no validation and no raise statement, so the embedding, written with
an Except result type to make a rejecting path expressible, always returns ok. -/
def station_new (fail_prob fix_time_mean work_time_mean : ℚ) :
    Except String StationRecord :=
  .ok { fail_prob := fail_prob
        fix_time_mean := fix_time_mean
        work_time_mean := work_time_mean
        count_since_check := 0
        is_broken := false
        binLevel := 25
        total_downtime := 0
        num_breakdowns := 0
        total_processing_time := 0
        busy_time := 0
        last_start_busy := 0 }

/-- The per-station failure probabilities hard-coded in Factory.__init__
(main.py line 117). -/
def fail_probs : List ℚ := [2/100, 1/100, 5/100, 15/100, 7/100, 6/100]

/-- Factory.__init__ (main.py lines 109 to 121), restricted to the six
station constructions (line 119, with the default fix_time_mean 3 and
work_time_mean 4 of line 23).  Like Station.__init__ it has no validation. -/
def factory_new : Except String (List StationRecord) :=
  fail_probs.mapM (fun p => station_new p 3 4)

/-- The attribute names assigned on self by Station.__init__, in source order
(main.py lines 24 to 42). -/
def station_init_attrs : List String :=
  ["env", "station_id", "resource", "fail_prob", "fix_time_mean",
   "work_time_mean", "count_since_check", "is_broken", "bin",
   "total_downtime", "last_break_time", "num_breakdowns",
   "total_processing_time", "busy_time", "last_start_busy"]

/-! ### Deterministic first-item trace (main.py lines 93 to 105, 123 to 129)

Under the fixed-constants scenario of the spec all draws are constants, the
first item finds station 1 free (no earlier item exists), the bin holds its
initial 25 units, and the restock loop only sleeps because the level never
drops below 5 (main.py lines 63 to 75). -/

/-- normal_time (main.py lines 5 to 8): the gaussian draw truncated at 0. -/
def normal_time (val : ℚ) : ℚ := max val 0

/-- The spawn time of the first routing task: production (main.py lines 123
to 129) increments items at virtual time 0, suspends for the absolute value
of the inter-arrival draw (line 126), then spawns item_processor. -/
def first_arrival (inter_draw : ℚ) : ℚ := 0 + |inter_draw|

/-- process_item (main.py lines 93 to 105) specialized to a run where the
suspensions resolve immediately: returns none on the paths that would block
(broken station at entry, line 94, or empty bin, line 97), otherwise the
completion time of the call, the bin level immediately after the withdrawal
of line 97, and the updated station fields.  work_draw and repair_draw are
the sampled durations, fail_draw the random.random() value of line 58. -/
def process_item_det (work_draw fail_draw repair_draw : ℚ) (t : ℚ)
    (s : StationRecord) : Option (ℚ × ℤ × StationRecord) :=
  if s.is_broken then none
  else if s.binLevel < 1 then none
  else
    let levelAfterGet := s.binLevel - 1
    let last_start := t
    let tDone := t + normal_time work_draw
    let busy := s.busy_time + (tDone - last_start)
    let c := s.count_since_check + 1
    if 5 ≤ c then
      if fail_draw < s.fail_prob then
        let tFixed := tDone + repair_draw
        some (tFixed, levelAfterGet,
          { s with binLevel := levelAfterGet, count_since_check := 0,
                   busy_time := busy, last_start_busy := last_start,
                   num_breakdowns := s.num_breakdowns + 1,
                   total_downtime := s.total_downtime + repair_draw })
      else
        some (tDone, levelAfterGet,
          { s with binLevel := levelAfterGet, count_since_check := 0,
                   busy_time := busy, last_start_busy := last_start })
    else
      some (tDone, levelAfterGet,
        { s with binLevel := levelAfterGet, count_since_check := c,
                 busy_time := busy, last_start_busy := last_start })

/-- The state of station 1 at the start of the run, as built by station_new
with the fail probability of main.py line 117. -/
def station1_start : StationRecord :=
  { fail_prob := 2/100, fix_time_mean := 3, work_time_mean := 4,
    count_since_check := 0, is_broken := false, binLevel := 25,
    total_downtime := 0, num_breakdowns := 0, total_processing_time := 0,
    busy_time := 0, last_start_busy := 0 }

/-! ### Capacity-1 resource queue (simpy Resource, spec section 4.2) and the
stations 4/5 race (main.py lines 139 to 148)

A simpy Resource of capacity 1 grants a request immediately when the slot is
free (the request occupies the slot whether or not any process ever yields
it), and otherwise appends it to a FIFO queue; a release of the holding
request grants the slot to the head of the queue.  Requests are identified by
numbers.  In every reachable state the queue is empty whenever the slot is
free, so the grant-immediately branch ignores the queue. -/

/-- An action on one resource: a request or a release of a given request id. -/
inductive RAct where
  | request (i : ℕ)
  | release (i : ℕ)
  deriving DecidableEq, Repr

/-- State of a capacity-1 resource: the request holding the slot, if any, and
the FIFO queue of pending requests. -/
structure RState where
  holder : Option ℕ
  queue : List ℕ
  deriving DecidableEq, Repr

/-- One step of the resource semantics described above.  A release of a
request that does not hold the slot leaves the state unchanged (the source
never performs one on a granted request other than the holder). -/
def rstep (s : RState) : RAct → RState
  | .request i =>
    match s.holder with
    | none => { holder := some i, queue := s.queue }
    | some h => { holder := some h, queue := s.queue ++ [i] }
  | .release i =>
    if s.holder = some i then
      match s.queue with
      | [] => { holder := none, queue := [] }
      | j :: q => { holder := some j, queue := q }
    else s

/-- Run a list of actions on a resource state. -/
def rrun (s : RState) (acts : List RAct) : RState := acts.foldl rstep s

/-- The state of station 5 just after the first item reaches the race of
main.py lines 139 to 141 in a run where no earlier request for station 5
exists: the race request req5 (id 0, line 140) is granted the free slot at
creation; the if-branch of line 142 is taken because req4 was granted and
processed first, so after station 4 the item issues a fresh with-request for
station 5 (id 1, via line 144 and the with-block of line 178), which queues
behind the still-granted id 0. -/
def race_state : RState := rrun { holder := none, queue := [] }
  [RAct.request 0, RAct.request 1]

/-- A list of actions never releases request id i.  Lines 139 to 148 of
main.py release only the winning race request (passed to process_at_station
and released at line 176) and with-requests after they are granted; no code
path releases the losing race request, so every continuation of the run
satisfies this for id 0. -/
def never_releases (acts : List RAct) (i : ℕ) : Prop := RAct.release i ∉ acts

instance (acts : List RAct) (i : ℕ) : Decidable (never_releases acts i) := by
  unfold never_releases; infer_instance

/-! ### Factory output counters (main.py lines 123 to 129, 150 to 153)

Observable states are those at suspension points of the single-threaded
scheduler.  production increments items, suspends for the inter-arrival
delay, spawns the routing task and, with no suspension in between, starts the
next iteration by incrementing items again; so at every suspension point
items equals the number of spawned routing tasks plus one, starting from the
state reached at virtual time 0 where items was first incremented before any
spawn.  The output increments of lines 150 to 153 are dead code: every
spawned routing task permanently blocks on its processing request for
station 5, which queues behind the never-released losing race request (the
resource model above, rrun_keeps_holder), before reaching line 150; so no
transition of the run ever touches total_produced or faulty_products, and
the ghost counters spawned and completed record spawned routing tasks and
routing tasks that reached lines 150 to 153 (none ever does). -/

structure FState where
  items : ℕ
  spawned : ℕ
  completed : ℕ
  total_produced : ℕ
  faulty_products : ℕ
  deriving DecidableEq, Repr

/-- The first observable state of the run: production has executed line 125
once at time 0 and suspended on line 127; nothing is spawned or completed. -/
def finit : FState := ⟨1, 0, 0, 0, 0⟩

/-- Steps of the counter system.  spawn_arrive is the resumption of
production at line 129 followed immediately (no suspension between lines 129
and 125 of the next iteration) by the increment of line 125.  There is no
completion step: every routing task blocks forever on station 5 before
reaching lines 150 to 153 (see the resource model above), so no reachable
transition of the program increments completed, total_produced or
faulty_products. -/
inductive FStep : FState → FState → Prop
  | spawn_arrive (s) :
      FStep s ⟨s.items + 1, s.spawned + 1, s.completed,
               s.total_produced, s.faulty_products⟩

/-- Reachable counter states. -/
inductive FReach : FState → Prop
  | start : FReach finit
  | step {s s'} : FReach s → FStep s s' → FReach s'

/-! ### Per-station busy and downtime accounting (main.py lines 45 to 49, 77
to 91, 93 to 105)

A station processes at most one item at a time because process_item is
entered only by the task holding the capacity-1 resource, and the breakdown
of lines 104 to 105 runs inline before that resource is released.  The
per-station timeline therefore alternates: start_processing (line 46),
finish_processing (line 49), optionally break_station start (line 81) and
repair end (lines 88 to 90), all at non-decreasing virtual times.  The
system below has exactly these events plus time advance; every run of the
source projects onto a trace of it. -/

inductive Phase where
  | idle | processing | broken
  deriving DecidableEq, Repr

structure TState where
  now : ℚ
  busy_time : ℚ
  total_downtime : ℚ
  last_start_busy : ℚ
  last_break_time : ℚ
  phase : Phase
  deriving DecidableEq, Repr

/-- Station fields at simulation start (main.py lines 37 to 42), at virtual
time 0. -/
def tinit : TState := ⟨0, 0, 0, 0, 0, Phase.idle⟩

/-- Steps of the per-station timeline.  advance moves virtual time forward;
start is start_processing (line 46); finish is finish_processing (line 49);
break_start is the head of break_station (lines 79 to 81); repair_end is its
tail (lines 88 to 90). -/
inductive TStep : TState → TState → Prop
  | advance (s) (d : ℚ) (hd : 0 ≤ d) :
      TStep s { s with now := s.now + d }
  | start (s) (h : s.phase = Phase.idle) :
      TStep s { s with phase := Phase.processing, last_start_busy := s.now }
  | finish (s) (h : s.phase = Phase.processing) :
      TStep s { s with phase := Phase.idle,
                       busy_time := s.busy_time + (s.now - s.last_start_busy) }
  | break_start (s) (h : s.phase = Phase.idle) :
      TStep s { s with phase := Phase.broken, last_break_time := s.now }
  | repair_end (s) (h : s.phase = Phase.broken) :
      TStep s { s with phase := Phase.idle,
                       total_downtime :=
                         s.total_downtime + (s.now - s.last_break_time) }

/-- Reachable timeline states. -/
inductive TReach : TState → Prop
  | start : TReach tinit
  | step {s s'} : TReach s → TStep s s' → TReach s'

/-! ### Broken-flag protocol (main.py lines 77 to 105, 172 to 181)

is_broken is mutated only by break_station, which runs inline in
process_item (line 105) while the calling task holds the capacity-1 station
resource; process_at_station releases the resource (line 176 or the
with-block exit of line 178) only after process_item has returned, hence
only after any inline repair has finished and reset is_broken to False.  The
holder may also be a leaked race request (main.py line 139 or 140) that
never enters process_item and never releases; such a holder never touches
is_broken.  The system below records only the holder of the resource and the
flag. -/

structure PState where
  holder : Option ℕ
  is_broken : Bool
  deriving DecidableEq, Repr

/-- Station resource at simulation start: free, not broken (main.py lines 26
and 33). -/
def pinit : PState := ⟨none, false⟩

/-- Steps of the protocol.  acquire is the grant of the station resource to
a task (main.py line 174 or 179, or the immediate grant of a race request at
line 139 or 140); breakdown and repair are the is_broken writes of
break_station (lines 79 and 88), performed by the task holding the resource;
release requires is_broken false because every release in the source runs
after process_item returned. -/
inductive PStep : PState → PState → Prop
  | acquire (s) (t : ℕ) (h : s.holder = none) :
      PStep s { s with holder := some t }
  | breakdown (s) (t : ℕ) (h : s.holder = some t) (hb : s.is_broken = false) :
      PStep s { s with is_broken := true }
  | repair (s) (t : ℕ) (h : s.holder = some t) (hb : s.is_broken = true) :
      PStep s { s with is_broken := false }
  | release (s) (t : ℕ) (h : s.holder = some t) (hb : s.is_broken = false) :
      PStep s { s with holder := none }

/-- Reachable protocol states. -/
inductive PReach : PState → Prop
  | start : PReach pinit
  | step {s s'} : PReach s → PStep s s' → PReach s'

/-! ### Per-station bin (main.py lines 34, 63 to 75, 97)

The bin is a simpy Container with initial level 25 and no upper cap.  The
only withdrawal is the get(1) of line 97, which blocks until the level is at
least 1.  The only deposit is the put(25) of line 72, performed by the
single per-station restock loop after it observed level < 5 at line 65; the
level can only fall between that observation and the deposit, because no
other task deposits into this bin.  observed records that the loop is
between the observation and the deposit. -/

structure BState where
  level : ℤ
  observed : Bool
  deriving DecidableEq, Repr

/-- Bin at simulation start (main.py line 34). -/
def binit : BState := ⟨25, false⟩

/-- Steps of the bin system: the get(1) of line 97 (enabled once the level
is at least 1), the observation of line 65, the put(25) of line 72, and the
sleep of line 75 when the level is at least 5. -/
inductive BStep : BState → BState → Prop
  | withdraw (s) (h : 1 ≤ s.level) :
      BStep s { s with level := s.level - 1 }
  | observe (s) (h : s.observed = false) (hl : s.level < 5) :
      BStep s { s with observed := true }
  | deposit (s) (h : s.observed = true) :
      BStep s { level := s.level + 25, observed := false }
  | recheck (s) (h : s.observed = false) (hl : 5 ≤ s.level) :
      BStep s s

/-- Reachable bin states. -/
inductive BReach : BState → Prop
  | start : BReach binit
  | step {s s'} : BReach s → BStep s s' → BReach s'

/-! ## Helper lemmas -/

/-- A granted request that no action releases holds the slot forever. -/
lemma rrun_keeps_holder :
    ∀ (acts : List RAct) (h : ℕ) (q : List ℕ), RAct.release h ∉ acts →
      (rrun ⟨some h, q⟩ acts).holder = some h
  | [], h, q, _ => rfl
  | a :: acts, h, q, hna => by
    have htail : RAct.release h ∉ acts := fun hm => hna (List.mem_cons_of_mem a hm)
    cases a with
    | request i =>
      show (rrun (rstep ⟨some h, q⟩ (RAct.request i)) acts).holder = some h
      simpa [rstep] using rrun_keeps_holder acts h (q ++ [i]) htail
    | release i =>
      have hih : i ≠ h := by
        intro hih; exact hna (by simp [hih])
      show (rrun (rstep ⟨some h, q⟩ (RAct.release i)) acts).holder = some h
      have hne : ¬ (some h = some i) := by
        simp only [Option.some.injEq]
        exact fun he => hih he.symm
      simpa [rstep, hne] using rrun_keeps_holder acts h q htail

/-- While the slot holder is never released, queued requests stay queued. -/
lemma rrun_keeps_queued :
    ∀ (acts : List RAct) (h : ℕ) (q : List ℕ) (x : ℕ), RAct.release h ∉ acts →
      x ∈ q → x ∈ (rrun ⟨some h, q⟩ acts).queue
  | [], _, _, _, _, hx => hx
  | a :: acts, h, q, x, hna, hx => by
    have htail : RAct.release h ∉ acts := fun hm => hna (List.mem_cons_of_mem a hm)
    cases a with
    | request i =>
      show x ∈ (rrun (rstep ⟨some h, q⟩ (RAct.request i)) acts).queue
      simpa [rstep] using
        rrun_keeps_queued acts h (q ++ [i]) x htail (by simp [hx])
    | release i =>
      have hih : i ≠ h := by
        intro hih; exact hna (by simp [hih])
      show x ∈ (rrun (rstep ⟨some h, q⟩ (RAct.release i)) acts).queue
      have hne : ¬ (some h = some i) := by
        simp only [Option.some.injEq]
        exact fun he => hih he.symm
      simpa [rstep, hne] using rrun_keeps_queued acts h q x htail hx

/-- The trial flag of check_for_failure depends only on the counter. -/
lemma check_for_failure_flag (p r : ℚ) (s : CFState) :
    (check_for_failure p r s).2.1 = decide (5 ≤ s.count_since_check + 1) := by
  by_cases h5 : 5 ≤ s.count_since_check + 1 <;> by_cases hr : r < p <;>
    simp [check_for_failure, h5, hr]

/-- The counter after check_for_failure: reset on the trial branch. -/
lemma check_for_failure_count (p r : ℚ) (s : CFState) :
    (check_for_failure p r s).1.count_since_check
      = if 5 ≤ s.count_since_check + 1 then 0 else s.count_since_check + 1 := by
  by_cases h5 : 5 ≤ s.count_since_check + 1 <;> by_cases hr : r < p <;>
    simp [check_for_failure, h5, hr]

/-- With fail probability 0 and a non-negative draw, the breakdown counter
does not move. -/
lemma check_for_failure_zero (r : ℚ) (hr : 0 ≤ r) (s : CFState) :
    (check_for_failure 0 r s).1.num_breakdowns = s.num_breakdowns := by
  have hnr : ¬ r < (0 : ℚ) := not_lt.mpr hr
  by_cases h5 : 5 ≤ s.count_since_check + 1 <;>
    simp [check_for_failure, h5, hnr]

/-- Starting below 5, the trial flags are exactly the positions where the
running completion count is a multiple of 5. -/
lemma trial_flags_eq (p : ℚ) :
    ∀ (draws : List ℚ) (s : CFState), s.count_since_check < 5 →
      trial_flags p s draws
        = (List.range draws.length).map
            (fun k => decide ((s.count_since_check + k + 1) % 5 = 0))
  | [], s, _ => by simp [trial_flags]
  | r :: rs, s, hlt => by
    have hcount := check_for_failure_count p r s
    have hflag := check_for_failure_flag p r s
    have hlt2 : (check_for_failure p r s).1.count_since_check < 5 := by
      rw [hcount]; split <;> omega
    have ih := trial_flags_eq p rs (check_for_failure p r s).1 hlt2
    show (check_for_failure p r s).2.1 ::
        trial_flags p (check_for_failure p r s).1 rs = _
    rw [hflag, ih, List.length_cons, List.range_succ_eq_map, List.map_cons,
      List.map_map]
    congr 1
    · rw [decide_eq_decide]
      omega
    · apply List.map_congr_left
      intro k _
      simp only [Function.comp_apply]
      rw [decide_eq_decide, hcount]
      split <;> omega

/-- With fail probability 0 and non-negative draws, run_checks never
increments the breakdown counter. -/
lemma run_checks_zero :
    ∀ (draws : List ℚ) (s : CFState), (∀ r ∈ draws, 0 ≤ r) →
      (run_checks 0 s draws).num_breakdowns = s.num_breakdowns
  | [], _, _ => rfl
  | r :: rs, s, h => by
    have hr : 0 ≤ r := h r (by simp)
    have htail : ∀ x ∈ rs, (0 : ℚ) ≤ x := fun x hx => h x (by simp [hx])
    show (run_checks 0 (check_for_failure 0 r s).1 rs).num_breakdowns = _
    rw [run_checks_zero rs (check_for_failure 0 r s).1 htail,
      check_for_failure_zero r hr s]

/-- Invariant of the factory counter system: the output counters and the
completion count stay 0 (lines 150 to 153 are unreachable), and items leads
the spawn count by exactly one. -/
def FInv (s : FState) : Prop :=
  s.total_produced = 0 ∧ s.faulty_products = 0 ∧ s.completed = 0 ∧
  s.items = s.spawned + 1

/-- Every step of the counter system preserves the invariant. -/
lemma finv_step {s s' : FState} (hstep : FStep s s') (ih : FInv s) : FInv s' := by
  obtain ⟨i1, i2, i3, i4⟩ := ih
  cases hstep with
  | spawn_arrive =>
    refine ⟨i1, i2, i3, ?_⟩
    show s.items + 1 = s.spawned + 1 + 1
    omega

/-- The counter invariant holds in every reachable state. -/
lemma freach_inv {s : FState} (h : FReach s) : FInv s := by
  induction h with
  | start => exact ⟨rfl, rfl, rfl, rfl⟩
  | step _ hstep ih => exact finv_step hstep ih

/-- Invariant of the per-station timeline: the accumulated busy time and
downtime are non-negative, the start of any in-flight interval lies between
the accumulated totals and the current time, and the totals never exceed the
current virtual time. -/
def TInv (s : TState) : Prop :=
  0 ≤ s.busy_time ∧ 0 ≤ s.total_downtime ∧
  (s.phase = Phase.processing →
    s.busy_time + s.total_downtime ≤ s.last_start_busy ∧
      s.last_start_busy ≤ s.now) ∧
  (s.phase = Phase.broken →
    s.busy_time + s.total_downtime ≤ s.last_break_time ∧
      s.last_break_time ≤ s.now) ∧
  s.busy_time + s.total_downtime ≤ s.now

/-- Every step of the per-station timeline preserves the invariant. -/
lemma tinv_step {s s' : TState} (hstep : TStep s s') (ih : TInv s) : TInv s' := by
  obtain ⟨ib, idt, ip, ibr, isum⟩ := ih
  cases hstep with
  | advance d hd =>
    refine ⟨ib, idt, fun hp => ?_, fun hb => ?_, ?_⟩
    · obtain ⟨h1, h2⟩ := ip hp
      refine ⟨h1, ?_⟩
      show s.last_start_busy ≤ s.now + d
      linarith
    · obtain ⟨h1, h2⟩ := ibr hb
      refine ⟨h1, ?_⟩
      show s.last_break_time ≤ s.now + d
      linarith
    · show s.busy_time + s.total_downtime ≤ s.now + d
      linarith
  | start hph =>
    refine ⟨ib, idt, fun _ => ⟨isum, le_refl s.now⟩, fun hb => ?_, isum⟩
    simp at hb
  | finish hph =>
    obtain ⟨h1, h2⟩ := ip hph
    refine ⟨?_, idt, fun hp => ?_, fun hb => ?_, ?_⟩
    · show 0 ≤ s.busy_time + (s.now - s.last_start_busy)
      linarith
    · simp at hp
    · simp at hb
    · show s.busy_time + (s.now - s.last_start_busy) + s.total_downtime ≤ s.now
      linarith
  | break_start hph =>
    refine ⟨ib, idt, fun hp => ?_, fun _ => ⟨isum, le_refl s.now⟩, isum⟩
    simp at hp
  | repair_end hph =>
    obtain ⟨h1, h2⟩ := ibr hph
    refine ⟨ib, ?_, fun hp => ?_, fun hb => ?_, ?_⟩
    · show 0 ≤ s.total_downtime + (s.now - s.last_break_time)
      linarith
    · simp at hp
    · simp at hb
    · show s.busy_time + (s.total_downtime + (s.now - s.last_break_time)) ≤ s.now
      linarith

/-- The timeline invariant holds in every reachable state. -/
lemma treach_inv {s : TState} (h : TReach s) : TInv s := by
  induction h with
  | start =>
    refine ⟨le_refl 0, le_refl 0, fun hp => ⟨?_, le_refl 0⟩,
      fun hb => ⟨?_, le_refl 0⟩, ?_⟩ <;> norm_num [tinit]
  | step _ hstep ih => exact tinv_step hstep ih

/-- Every step of the broken-flag protocol preserves the invariant that a
free station resource implies a non-broken station. -/
lemma pinv_step {s s' : PState} (hstep : PStep s s')
    (_ih : s.holder = none → s.is_broken = false) :
    s'.holder = none → s'.is_broken = false := by
  cases hstep with
  | acquire t h => intro hh; simp at hh
  | breakdown t h hb =>
    intro hh
    have hsh : s.holder = none := hh
    rw [h] at hsh
    simp at hsh
  | repair t h hb => intro _; rfl
  | release t h hb => intro _; exact hb

/-- The broken-flag invariant holds in every reachable state. -/
lemma preach_inv {s : PState} (h : PReach s) :
    s.holder = none → s.is_broken = false := by
  induction h with
  | start => intro _; rfl
  | step _ hstep ih => exact pinv_step hstep ih

/-- Invariant of the bin system: the level stays within 0 and 29, and while
a replenishment is in flight the level is at most 4. -/
def BInv (s : BState) : Prop :=
  0 ≤ s.level ∧ s.level ≤ 29 ∧ (s.observed = true → s.level ≤ 4)

/-- Every step of the bin system preserves the invariant. -/
lemma binv_step {s s' : BState} (hstep : BStep s s') (ih : BInv s) : BInv s' := by
  obtain ⟨i1, i2, i3⟩ := ih
  cases hstep with
  | withdraw h =>
    refine ⟨?_, ?_, fun hb => ?_⟩
    · show 0 ≤ s.level - 1
      omega
    · show s.level - 1 ≤ 29
      omega
    · have := i3 hb
      show s.level - 1 ≤ 4
      omega
  | observe h hl =>
    refine ⟨i1, i2, fun _ => ?_⟩
    show s.level ≤ 4
    omega
  | deposit h =>
    have := i3 h
    refine ⟨?_, ?_, fun hb => ?_⟩
    · show 0 ≤ s.level + 25
      omega
    · show s.level + 25 ≤ 29
      omega
    · simp at hb
  | recheck h hl => exact ⟨i1, i2, i3⟩

/-- The bin invariant holds in every reachable state. -/
lemma breach_inv {s : BState} (h : BReach s) : BInv s := by
  induction h with
  | start => exact ⟨by norm_num [binit], by norm_num [binit], fun hb => by simp [binit] at hb⟩
  | step _ hstep ih => exact binv_step hstep ih

/-! ## Claims -/

/-- C1: the claim states that both station 4 and station 5 process every item
that reaches the alternate-path segment exactly once.  This fails on the
code: at the first race (main.py lines 139 to 141) both stations are free, so
the losing race request for station 5 (id 0, line 140) is granted the free
slot at creation, the condition resolves in favour of req4, and no line of
the routing task ever releases the losing request.  The later processing
request for station 5 (id 1, issued via line 144 through the with-block of
line 178) is therefore never granted in any continuation of the run: station
5 never holds the processing request, hence never processes the item. -/
theorem c1_station5_never_processes (acts : List RAct)
    (h : never_releases acts 0) :
    (rrun race_state acts).holder ≠ some 1 := by
  have hst : race_state = ⟨some 0, [1]⟩ := rfl
  rw [hst, rrun_keeps_holder acts 0 [1] h]
  simp

/-- C1 witness: a concrete continuation of the run. -/
theorem c1_witness :
    never_releases [RAct.request 2, RAct.release 2] 0 ∧
    (rrun race_state [RAct.request 2, RAct.release 2]).holder ≠ some 1 :=
  ⟨by decide,
    c1_station5_never_processes [RAct.request 2, RAct.release 2] (by decide)⟩

/-- C2: the claim states that each workstation maintains an ordered status
history of (timestamp, status) events.  Station.__init__ (main.py lines 23
to 43) assigns exactly the attributes listed in station_init_attrs, and no
code in src/main.py ever creates or appends a status_history, although
data_processor.filter_station_history (data_processor.py line 30) and the
dashboard (dashboard.py line 39) read station.status_history. -/
theorem c2_no_status_history : "status_history" ∉ station_init_attrs := by
  decide

/-- C3: the claim states that every acquired resource, in particular the
losing request of the stations 4/5 race, is eventually released, so no task
is permanently blocked.  On the code the losing race request (id 0) is
granted station 5 and never released by any continuation of the run, and the
processing request (id 1) of the same item stays in the queue forever: the
routing task suspended on it never resumes. -/
theorem c3_losing_request_never_released (acts : List RAct)
    (h : never_releases acts 0) :
    (rrun race_state acts).holder = some 0 ∧
    1 ∈ (rrun race_state acts).queue := by
  have hst : race_state = ⟨some 0, [1]⟩ := rfl
  rw [hst]
  exact ⟨rrun_keeps_holder acts 0 [1] h,
    rrun_keeps_queued acts 0 [1] 1 h (by simp)⟩

/-- C3 witness: a concrete continuation of the run. -/
theorem c3_witness :
    never_releases [RAct.release 1] 0 ∧
    ((rrun race_state [RAct.release 1]).holder = some 0 ∧
      1 ∈ (rrun race_state [RAct.release 1]).queue) :=
  ⟨by decide, c3_losing_request_never_released [RAct.release 1] (by decide)⟩

/-- C4: for every station, busy_time and total_downtime are monotonically
non-decreasing along every step of the run, and at every reachable instant
their sum never exceeds the elapsed virtual time. -/
theorem c4_busy_downtime_accounting (s s' : TState) (hr : TReach s)
    (hstep : TStep s s') :
    s.busy_time ≤ s'.busy_time ∧ s.total_downtime ≤ s'.total_downtime ∧
    s.busy_time + s.total_downtime ≤ s.now ∧
    s'.busy_time + s'.total_downtime ≤ s'.now := by
  obtain ⟨ib, idt, ip, ibr, isum⟩ := treach_inv hr
  have hi' := treach_inv (TReach.step hr hstep)
  refine ⟨?_, ?_, isum, hi'.2.2.2.2⟩
  · cases hstep with
    | advance d hd => exact le_refl _
    | start hph => exact le_refl _
    | finish hph =>
      obtain ⟨h1, h2⟩ := ip hph
      show s.busy_time ≤ s.busy_time + (s.now - s.last_start_busy)
      linarith
    | break_start hph => exact le_refl _
    | repair_end hph => exact le_refl _
  · cases hstep with
    | advance d hd => exact le_refl _
    | start hph => exact le_refl _
    | finish hph => exact le_refl _
    | break_start hph => exact le_refl _
    | repair_end hph =>
      obtain ⟨h1, h2⟩ := ibr hph
      show s.total_downtime ≤ s.total_downtime + (s.now - s.last_break_time)
      linarith

/-- C4 witness: the initial station state and a one-unit time advance. -/
theorem c4_witness :
    tinit.busy_time ≤ ({ tinit with now := tinit.now + 1 } : TState).busy_time ∧
    tinit.total_downtime ≤
      ({ tinit with now := tinit.now + 1 } : TState).total_downtime ∧
    tinit.busy_time + tinit.total_downtime ≤ tinit.now ∧
    ({ tinit with now := tinit.now + 1 } : TState).busy_time +
        ({ tinit with now := tinit.now + 1 } : TState).total_downtime ≤
      ({ tinit with now := tinit.now + 1 } : TState).now :=
  c4_busy_downtime_accounting tinit _ TReach.start
    (TStep.advance tinit 1 (by decide))

/-- C5 counterexample: the claim asserts that goodOutput + faultyOutput =
itemsStarted once the horizon is long enough that all spawned items
complete.  At the very first observable state of the run, all spawned items
(there are none) have trivially completed, yet goodOutput + faultyOutput = 0
while itemsStarted = 1: main.py line 125 increments items before the
suspension of line 127 that precedes the first spawn.  At every later
instant the outputs are still 0 (every routing task blocks forever at
station 5 before line 150) while itemsStarted keeps growing, so the
condition of the claim is never satisfied non-vacuously and the equality
never holds. -/
theorem c5_counterexample :
    FReach finit ∧
    finit.completed = finit.spawned ∧
    finit.total_produced + finit.faulty_products ≠ finit.items :=
  ⟨FReach.start, rfl, by decide⟩

/-- C5 (amended): goodOutput + faultyOutput ≤ itemsStarted holds at every
reachable instant, but only trivially: no routing task ever reaches the
output increments of main.py lines 150 to 153 (each blocks permanently on
station 5 behind the never-released losing race request), so
goodOutput + faultyOutput stays 0 while itemsStarted equals the spawned
count plus one and is at least 1 from virtual time 0; equality with
itemsStarted therefore never holds. -/
theorem c5_output_counters (s : FState) (hr : FReach s) :
    s.total_produced + s.faulty_products = 0 ∧
    s.completed = 0 ∧
    s.items = s.spawned + 1 ∧
    s.total_produced + s.faulty_products + 1 ≤ s.items := by
  obtain ⟨i1, i2, i3, i4⟩ := freach_inv hr
  exact ⟨by omega, i3, i4, by omega⟩

/-- C5 witness: the state after two arrivals, with two routing tasks
spawned and none completed. -/
theorem c5_witness :
    (⟨3, 2, 0, 0, 0⟩ : FState).total_produced +
        (⟨3, 2, 0, 0, 0⟩ : FState).faulty_products = 0 ∧
    (⟨3, 2, 0, 0, 0⟩ : FState).completed = 0 ∧
    (⟨3, 2, 0, 0, 0⟩ : FState).items = (⟨3, 2, 0, 0, 0⟩ : FState).spawned + 1 ∧
    (⟨3, 2, 0, 0, 0⟩ : FState).total_produced +
        (⟨3, 2, 0, 0, 0⟩ : FState).faulty_products + 1 ≤
      (⟨3, 2, 0, 0, 0⟩ : FState).items :=
  c5_output_counters ⟨3, 2, 0, 0, 0⟩
    (FReach.step (FReach.step FReach.start (FStep.spawn_arrive finit))
      (FStep.spawn_arrive ⟨2, 1, 0, 0, 0⟩))

/-- C6: starting from counter 0, a Bernoulli trial is drawn exactly on every
5th completion (the trial flag at completion k, counted from 1, is set
exactly when k is a multiple of 5), and with fail probability 0 the
breakdown counter stays 0 for any sequence of non-negative random draws. -/
theorem c6_failure_trials (p : ℚ) (draws : List ℚ)
    (h : ∀ r ∈ draws, 0 ≤ r) :
    trial_flags p ⟨0, 0⟩ draws
      = (List.range draws.length).map (fun k => decide ((k + 1) % 5 = 0)) ∧
    (run_checks 0 ⟨0, 0⟩ draws).num_breakdowns = 0 := by
  constructor
  · rw [trial_flags_eq p draws ⟨0, 0⟩ (by decide)]
    apply List.map_congr_left
    intro k _
    rw [decide_eq_decide]
    show (0 + k + 1) % 5 = 0 ↔ (k + 1) % 5 = 0
    omega
  · exact run_checks_zero draws ⟨0, 0⟩ h

/-- C6 witness: six completions with draw 0 each; the single trial happens
at the fifth completion. -/
theorem c6_witness :
    (∀ r ∈ ([0, 0, 0, 0, 0, 0] : List ℚ), 0 ≤ r) ∧
    (trial_flags 1 ⟨0, 0⟩ [0, 0, 0, 0, 0, 0]
        = (List.range ([0, 0, 0, 0, 0, 0] : List ℚ).length).map
            (fun k => decide ((k + 1) % 5 = 0)) ∧
      (run_checks 0 ⟨0, 0⟩ [0, 0, 0, 0, 0, 0]).num_breakdowns = 0) :=
  ⟨by decide, c6_failure_trials 1 [0, 0, 0, 0, 0, 0] (by decide)⟩

/-- C7: with the fixed constants of the spec (inter-arrival 3, processing 4,
no breakdown, restock delay 2), the first item is spawned at virtual time 3,
its completion at station 1 is at time 3 + 4 = 7, and the bin level of
station 1 immediately after its withdrawal is 25 - 1 = 24.  The restock
delay never comes into play because the level stays at least 5. -/
theorem c7_first_item_trace :
    first_arrival 3 = 3 ∧
    process_item_det 4 1 0 (first_arrival 3) station1_start
      = some (7, 24,
          { station1_start with
            binLevel := 24, count_since_check := 1,
            busy_time := 4, last_start_busy := 3 }) := by
  constructor
  · show (0 : ℚ) + |(3 : ℚ)| = 3
    norm_num
  · simp only [first_arrival, process_item_det, normal_time, station1_start]
    norm_num

/-- C8 counterexample: the claim states that a failure probability outside
[0, 1] or a negative mean is rejected at construction time.  Constructing a
station with failure probability 2 or with processing mean -3 succeeds. -/
theorem c8_counterexample :
    (1 : ℚ) < 2 ∧ (station_new 2 3 4).isOk = true ∧
    (-3 : ℚ) < 0 ∧ (station_new (1/2) 3 (-3)).isOk = true := by
  refine ⟨by norm_num, rfl, by norm_num, rfl⟩

/-- C8 (amended): Station.__init__ and Factory.__init__ perform no
validation at all; construction succeeds for every failure probability and
every mean, including invalid ones. -/
theorem c8_no_validation (p f w : ℚ) :
    (station_new p f w).isOk = true ∧ factory_new.isOk = true :=
  ⟨rfl, rfl⟩

/-- C9: whenever a station resource is granted (the pre-state has a free
holder), the post-state station is not broken: the breakdown of lines 104
to 105 of main.py is triggered and fully repaired by the item holding the
resource before the release, so is_broken is False at every entry to
process_item and the polling loop of line 94 never iterates. -/
theorem c9_not_broken_at_entry (s s' : PState) (hr : PReach s)
    (hstep : PStep s s') (hfree : s.holder = none) :
    s'.is_broken = false := by
  have hb := preach_inv hr hfree
  cases hstep with
  | acquire t h => exact hb
  | breakdown t h hbb => rw [hfree] at h; exact absurd h (by simp)
  | repair t h hbb => rfl
  | release t h hbb => rw [hfree] at h; exact absurd h (by simp)

/-- C9 witness: granting the free initial resource to task 1. -/
theorem c9_witness :
    ({ pinit with holder := some 1 } : PState).is_broken = false :=
  c9_not_broken_at_entry pinit _ PReach.start (PStep.acquire pinit 1 rfl) rfl

/-- C10: every reachable bin level lies between 0 and 29: it starts at 25,
the withdrawal of main.py line 97 takes one unit and blocks at 0, and the
restock loop deposits 25 only after observing a level strictly below 5. -/
theorem c10_bin_level_bounds (s : BState) (hr : BReach s) :
    0 ≤ s.level ∧ s.level ≤ 29 := by
  obtain ⟨i1, i2, _⟩ := breach_inv hr
  exact ⟨i1, i2⟩

/-- C10 witness: the initial bin state. -/
theorem c10_witness : 0 ≤ binit.level ∧ binit.level ≤ 29 :=
  c10_bin_level_bounds binit BReach.start

end SG1
